import Mathlib

/-!
Verification of the WoS (Web of Science) export consolidation pipeline
(`wos-data-prep/read.py`) against its specification.

Shallow embedding conventions:
* A pandas `DataFrame` holding only string data is a `Table`: a list of
  column labels plus rows of cells, where a cell is `Option String`
  (`none` models the pandas NaN / missing-value sentinel, `some s` an
  actual string cell).
* Files are modelled after text decoding as a list of lines (without
  line terminators); the `encoding` / `errors="ignore"` byte-level
  behaviour is below the level of this embedding.
* `pd.read_csv(f, sep="\t", header=0, dtype=str, keep_default_na=False)`
  is modelled as plain tab-splitting of lines: the first line is the
  header, blank lines are skipped (pandas `skip_blank_lines` default),
  every parsed field is a string cell (`some s`), and fields missing
  from a short row are the NaN sentinel (`none`).
* A directory is a `Folder`: a path plus `Option` of its entries
  (`none` models a non-existent directory).
-/

deriving instance DecidableEq for Except

/-- A cell of the dataframe: `none` is the pandas NaN sentinel. -/
abbrev Cell := Option String

/-- A pandas `DataFrame` of string data: column labels plus rows of cells,
each row aligned positionally with `cols`. -/
structure Table where
  cols : List String
  rows : List (List Cell)
deriving Repr, DecidableEq

/-- Well-formedness: every row has exactly one cell per column. -/
def Table.WF (t : Table) : Prop := ∀ r ∈ t.rows, r.length = t.cols.length

instance (t : Table) : Decidable t.WF := List.decidableBAll _ _

/-- The static column rename map `RENAME_MAP` of `read.py`. -/
def RENAME_MAP : List (String × String) :=
  [("PT", "Publication Type"),
   ("AU", "Author"),
   ("TI", "Title"),
   ("SO", "Journal"),
   ("VL", "Volume"),
   ("IS", "Issue"),
   ("DI", "DOI"),
   ("PD", "Date"),
   ("PY", "Year"),
   ("AB", "Abstract"),
   ("C1", "Author Address"),
   ("TC", "Notes_TC"),
   ("WC", "Notes_WC"),
   ("UT", "Accession Number")]

/-- Tab-splitting of one decoded line into fields, as the tab-separated
reader does (accumulator holds the current field, reversed). -/
def splitTabAux : List Char → List Char → List String
  | [], acc => [String.mk acc.reverse]
  | c :: cs, acc =>
    if c = '\t' then String.mk acc.reverse :: splitTabAux cs []
    else splitTabAux cs (c :: acc)

/-- Split a line at every tab: `"a\tb"` becomes `["a", "b"]`, the empty
line becomes `[""]`. -/
def splitTab (s : String) : List String := splitTabAux s.data []

/-- `line.startswith("PT\t")`: the line begins with the marker token
`PT` followed immediately by the tab delimiter. -/
def startsWithPTTab (l : String) : Bool :=
  match l.data with
  | 'P' :: 'T' :: '\t' :: _ => true
  | _ => false

/-- The `*.txt` glob pattern of `folder.glob("*.txt")`: the file name
ends with `.txt`. -/
def endsWithTxt (name : String) : Bool :=
  match name.data.reverse with
  | 't' :: 'x' :: 't' :: '.' :: _ => true
  | _ => false

/-- Error raised by `_find_header_line`
(`ValueError(f"'PT' header not found in {path.name}")`): it carries the
file name and the searched marker. -/
inductive HeaderError
  | notFound (file : String) (marker : String)
deriving Repr, DecidableEq

/-- The scan loop of `_find_header_line`: index of the first line that
begins with `"PT\t"`, starting the count at `i`. -/
def findHeaderAux (i : Nat) : List String → Option Nat
  | [] => none
  | l :: ls => if startsWithPTTab l then some i else findHeaderAux (i + 1) ls

/-- `_find_header_line(path, encoding)`: zero-based index of the first
line beginning with `'PT<TAB>'`, else a `HeaderError` naming the file
and the marker. -/
def findHeaderLine (file : String) (lines : List String) : Except HeaderError Nat :=
  match findHeaderAux 0 lines with
  | some i => .ok i
  | none => .error (.notFound file "PT")

/-- The row-repair predicate of `_repair_pt_au` on one string:
`df["PT"].str.len().gt(1) & df["PT"].str.match(r"^[JBSP] ")`, i.e. the
cell has length greater than 1 and starts with one of `J`, `B`, `S`, `P`
followed by a space. -/
def repairPred (s : String) : Bool :=
  decide (1 < s.length) &&
    (match s.data with
     | c1 :: c2 :: _ => (c1 = 'J' || c1 = 'B' || c1 = 'S' || c1 = 'P') && c2 = ' '
     | _ => false)

/-- The predicate lifted to a cell: a NaN `PT` cell never matches
(pandas `str` accessors propagate NaN, which masks to `False`). -/
def cellPred : Cell → Bool
  | some s => repairPred s
  | none => false

/-- `s.split(" ", 1)`: split at the first space into the text before it
and everything after it.  (When `s` has no space Python returns a
one-element list; that case is unreachable for repaired rows, whose
second character is a space, and is modelled as `(s, "")`.) -/
def splitFirstSpace (s : String) : String × String :=
  match s.data.dropWhile (fun c => c != ' ') with
  | [] => (s, "")
  | _ :: rest => (String.mk (s.data.takeWhile (fun c => c != ' ')), String.mk rest)

/-- The per-row effect of the vectorized repair assignment
`df.loc[mask, "PT"] = first; df.loc[mask, "AU"] = rest`, with `pi`/`ai`
the positions of the `PT` and `AU` columns. -/
def repairRow (pi ai : Nat) (r : List Cell) : List Cell :=
  if cellPred (r.getD pi none) then
    (r.set pi (some (splitFirstSpace ((r.getD pi none).getD "")).1)).set ai
      (some (splitFirstSpace ((r.getD pi none).getD "")).2)
  else r

/-- `_repair_pt_au(df)`: fix rows where `PT` and `AU` were glued together
with a space.  No-op when the `PT` column is absent or no row matches;
otherwise the `AU` column is created (pre-filled with `""`, appended as
the last column) when missing, and every matching row has its `PT` cell
split at the first space into the `PT` and `AU` cells. -/
def repairPtAu (df : Table) : Table :=
  if df.cols.contains "PT" then
    let pi := df.cols.indexOf "PT"
    if df.rows.any (fun r => cellPred (r.getD pi none)) then
      let df1 :=
        if df.cols.contains "AU" then df
        else { cols := df.cols ++ ["AU"], rows := df.rows.map (fun r => r ++ [some ""]) }
      let ai := df1.cols.indexOf "AU"
      { cols := df1.cols, rows := df1.rows.map (repairRow pi ai) }
    else df
  else df

/-- Label-level renaming: `df.rename(columns=m)` sends a label through
the mapping when it is a key, and leaves it unchanged otherwise. -/
def renameLabel (m : List (String × String)) (c : String) : String :=
  match m.lookup c with
  | some v => v
  | none => c

/-- The renaming step of `read_wos_exports`:
`cols_to_rename = {old: new for old, new in rename.items() if old in df.columns}`
followed by `df.rename(columns=cols_to_rename)`.  Only column labels
change; the rows are untouched. -/
def renameColumns (m : List (String × String)) (t : Table) : Table :=
  let m1 := m.filter (fun p => t.cols.contains p.1)
  { cols := t.cols.map (renameLabel m1), rows := t.rows }

/-- `pd.read_csv(f, sep="\t", header=0, dtype=str, keep_default_na=False)`
on the decoded lines of one file: the first line is the header, each
non-blank later line is one row, fields are tab-separated strings, and a
field missing from a short row is NaN (`none`).  (Rows longer than the
header, which pandas rejects, are truncated here; an empty file, which
pandas rejects, yields the empty table.) -/
def loadFrame (lines : List String) : Table :=
  match lines with
  | [] => { cols := [], rows := [] }
  | header :: body =>
    let cols := splitTab header
    { cols := cols,
      rows := (body.filter (fun l => l != "")).map (fun l =>
        let fs := splitTab l
        (List.range cols.length).map (fun j => fs[j]?)) }

/-- A directory: its path and, when it exists, its entries as
(file name, decoded lines) pairs. -/
structure Folder where
  path : String
  contents : Option (List (String × List String))

/-- The failure class of `read_wos_exports` (`FileNotFoundError` in the
source, `NoInputError` in the spec): it carries the offending directory
and the formatted message. -/
inductive PipeError
  | noInput (dir : String) (msg : String)
deriving Repr, DecidableEq

/-- Strict character order, by code point. -/
def charLt (a b : Char) : Bool := a.toNat < b.toNat

/-- Lexicographic order on file names (as Python compares path strings). -/
def nameLe : List Char → List Char → Bool
  | [], _ => true
  | _ :: _, [] => false
  | c :: cs, d :: ds =>
    if charLt c d then true else if charLt d c then false else nameLe cs ds

/-- One step of a stable insertion sort on the file name. -/
def insertByName (a : String × List String) :
    List (String × List String) → List (String × List String)
  | [] => [a]
  | b :: bs => if nameLe a.1.data b.1.data then a :: b :: bs else b :: insertByName a bs

/-- Stable sort by file name, modelling Python's `sorted` on paths. -/
def sortByName : List (String × List String) → List (String × List String)
  | [] => []
  | a :: as => insertByName a (sortByName as)

/-- `sorted(folder.glob("*.txt"))`: the entries whose name ends in
`.txt`, in lexicographically sorted name order. -/
def txtFiles (es : List (String × List String)) : List (String × List String) :=
  sortByName (es.filter (fun e => endsWithTxt e.1))

/-- The per-file loop of `read_wos_exports`: load each file with the
first line as header, then repair it. -/
def buildFrames (files : List (String × List String)) : List Table :=
  files.map (fun e => repairPtAu (loadFrame e.2))

/-- Column set of `pd.concat`: the union of the frames' columns in order
of first appearance (`sort=False` default). -/
def unionCols (css : List (List String)) : List String :=
  css.foldl (fun acc cs => acc ++ cs.filter (fun c => !acc.contains c)) []

/-- Reindexing one row of a frame `fr` to the concatenated column set:
a column absent from `fr` gets the NaN sentinel (`none`). -/
def alignRow (fr : Table) (allCols : List String) (r : List Cell) : List Cell :=
  allCols.map (fun c =>
    if fr.cols.contains c then r.getD (fr.cols.indexOf c) none else none)

/-- `pd.concat(frames, ignore_index=True)`: rows stack vertically in
frame order, each reindexed to the union of the columns. -/
def concatFrames (frames : List Table) : Table :=
  let allCols := unionCols (frames.map (fun f => f.cols))
  { cols := allCols,
    rows := frames.flatMap (fun fr => fr.rows.map (alignRow fr allCols)) }

/-- `read_wos_exports(folder, rename, encoding)`: fail when the directory
does not exist or holds no `.txt` file (both `FileNotFoundError`, with a
message naming the directory); otherwise load, repair, concatenate and
rename.  The commented-out `_find_header_line` call is not part of this
path: loading always takes the first line as the header. -/
def readWosExports (folder : Folder) (rename : List (String × String)) :
    Except PipeError Table :=
  match folder.contents with
  | none => .error (.noInput folder.path (folder.path ++ " does not exist."))
  | some es =>
    if (txtFiles es).isEmpty then
      .error (.noInput folder.path ("No .txt files found in " ++ folder.path))
    else
      .ok (renameColumns rename (concatFrames (buildFrames (txtFiles es))))

example : repairPred "J Smith, John" = true := by decide
example : repairPred "J" = false := by decide
example : repairPred "X long value" = false := by decide
example : splitFirstSpace "J Smith, John" = ("J", "Smith, John") := by decide
example :
    repairPtAu { cols := ["PT", "TI"], rows := [[some "J Smith, John", some "t"]] } =
      { cols := ["PT", "TI", "AU"],
        rows := [[some "J", some "t", some "Smith, John"]] } := by decide

example : splitTab "J\tX\t" = ["J", "X", ""] := by decide
example : startsWithPTTab "PT\tAU" = true := by decide
example : endsWithTxt "a.txt" = true && endsWithTxt "a.csv" = false := by decide
example :
    readWosExports
        { path := "data",
          contents := some [("b.txt", ["PT\tAB", "B\tBar"]), ("a.txt", ["PT\tAU", "J\tFoo"])] }
        RENAME_MAP =
      .ok { cols := ["Publication Type", "Author", "Abstract"],
            rows := [[some "J", some "Foo", none], [some "B", none, some "Bar"]] } := by
  decide
example :
    readWosExports { path := "data", contents := some [("a.csv", ["PT\tAU"])] } RENAME_MAP =
      .error (.noInput "data" ("No .txt files found in " ++ "data")) := by decide
example : findHeaderLine "f.txt" ["junk", "x", "PT\tAU", "J\tY"] = .ok 2 := by decide

/-! ### Lemmas about the repair predicate and the split at the first space -/

lemma repairPred_decomp (s : String) (h : repairPred s = true) :
    ∃ c rest, s.data = c :: ' ' :: rest ∧ (c = 'J' ∨ c = 'B' ∨ c = 'S' ∨ c = 'P') := by
  unfold repairPred at h
  rcases hs : s.data with _ | ⟨c, _ | ⟨c2, rest⟩⟩ <;> rw [hs] at h
  · simp at h
  · simp at h
  · simp only [Bool.and_eq_true, Bool.or_eq_true, decide_eq_true_eq] at h
    obtain ⟨-, hcs, hsp⟩ := h
    subst hsp
    exact ⟨c, rest, hs ▸ rfl, by tauto⟩

lemma splitFirstSpace_pred (s : String) (h : repairPred s = true) :
    ∃ c rest, s.data = c :: ' ' :: rest ∧
      splitFirstSpace s = (String.mk [c], String.mk rest) ∧
      (c = 'J' ∨ c = 'B' ∨ c = 'S' ∨ c = 'P') := by
  obtain ⟨c, rest, hs, hc⟩ := repairPred_decomp s h
  have hcne : (c != ' ') = true := by
    rcases hc with h1 | h1 | h1 | h1 <;> subst h1 <;> decide
  refine ⟨c, rest, hs, ?_, hc⟩
  unfold splitFirstSpace
  rw [hs]
  simp [List.dropWhile_cons, List.takeWhile_cons, hcne]

/-- Round-trip of the split: code field ++ `" "` ++ free-text field
reconstructs the original merged cell. -/
lemma splitFirstSpace_roundtrip (s : String) (h : repairPred s = true) :
    (splitFirstSpace s).1 ++ " " ++ (splitFirstSpace s).2 = s := by
  obtain ⟨c, rest, hs, hsplit, -⟩ := splitFirstSpace_pred s h
  rw [hsplit]
  apply String.ext
  rw [hs]
  rfl

/-! ### Table-level behaviour of '_repair_pt_au' -/

lemma contains_iff (l : List String) (a : String) : l.contains a = true ↔ a ∈ l := by
  simp [List.contains_eq_any_beq]

lemma indexOf_append_self (l : List String) (h : "AU" ∉ l) :
    (l ++ ["AU"]).indexOf "AU" = l.length := by
  induction l with
  | nil => rfl
  | cons x xs ih =>
    have hx : x ≠ "AU" := fun he => h (he ▸ List.mem_cons_self x xs)
    rw [List.cons_append, List.indexOf_cons]
    simp [beq_false_of_ne hx, ih (fun hm => h (List.mem_cons_of_mem _ hm))]

/-- When the `PT` column is absent or no row matches, `_repair_pt_au`
returns the table unchanged. -/
lemma repairPtAu_inactive (t : Table)
    (h : "PT" ∉ t.cols ∨
      ∀ r ∈ t.rows, cellPred (r.getD (t.cols.indexOf "PT") none) = false) :
    repairPtAu t = t := by
  unfold repairPtAu
  rcases h with h | h
  · simp [h]
  · by_cases hP : "PT" ∈ t.cols
    · have hno : ¬ ∃ x ∈ t.rows, cellPred (x[t.cols.indexOf "PT"]?.getD none) = true := by
        rintro ⟨x, hx, hpx⟩
        have hfalse := h x hx
        rw [List.getD_eq_getElem?_getD] at hfalse
        rw [hfalse] at hpx
        exact absurd hpx (by simp)
      simp [hP, hno]
    · simp [hP]

/-- Shape of `_repair_pt_au` in the active case: `AU` is appended when
missing, and every row goes through `repairRow`. -/
lemma repairPtAu_active (t : Table)
    (hPT : "PT" ∈ t.cols)
    (hAny : ∃ r ∈ t.rows, cellPred (r.getD (t.cols.indexOf "PT") none) = true) :
    repairPtAu t =
      (fun df1 =>
        { cols := df1.cols,
          rows := df1.rows.map
            (repairRow (t.cols.indexOf "PT") (df1.cols.indexOf "AU")) })
        (if t.cols.contains "AU" then t
         else { cols := t.cols ++ ["AU"], rows := t.rows.map (fun r => r ++ [some ""]) }) := by
  unfold repairPtAu
  have hAny' : ∃ x ∈ t.rows, cellPred (x[t.cols.indexOf "PT"]?.getD none) = true := by
    obtain ⟨r, hr, hpr⟩ := hAny
    rw [List.getD_eq_getElem?_getD] at hpr
    exact ⟨r, hr, hpr⟩
  simp [hPT, hAny']

/-- Where a matching row ends up after `_repair_pt_au`: the `PT` cell
holds the recovered code, the `AU` cell holds the rest. -/
lemma repair_row_get (t : Table) (hwf : t.WF) (hPT : "PT" ∈ t.cols)
    (i : Nat) (r : List Cell) (s : String)
    (hr : t.rows[i]? = some r)
    (hpt : r[t.cols.indexOf "PT"]? = some (some s))
    (hpred : repairPred s = true) :
    ∃ r', (repairPtAu t).rows[i]? = some r' ∧
      r'[t.cols.indexOf "PT"]? = some (some (splitFirstSpace s).1) ∧
      r'[(repairPtAu t).cols.indexOf "AU"]? = some (some (splitFirstSpace s).2) := by
  have hpilt : t.cols.indexOf "PT" < t.cols.length := List.indexOf_lt_length.mpr hPT
  have hmem : r ∈ t.rows := List.getElem?_mem hr
  have hrlen : r.length = t.cols.length := hwf r hmem
  have hgetD : r.getD (t.cols.indexOf "PT") none = some s := by
    rw [List.getD_eq_getElem?_getD, hpt]; rfl
  have hcell : cellPred (r.getD (t.cols.indexOf "PT") none) = true := by
    rw [hgetD]; exact hpred
  have hpir : t.cols.indexOf "PT" < r.length := hrlen ▸ hpilt
  by_cases hAU : "AU" ∈ t.cols
  · have hAUc : t.cols.contains "AU" = true := (contains_iff _ _).mpr hAU
    have hailt : t.cols.indexOf "AU" < t.cols.length := List.indexOf_lt_length.mpr hAU
    have hne : t.cols.indexOf "AU" ≠ t.cols.indexOf "PT" := fun he =>
      absurd ((List.indexOf_inj hAU hPT).mp he) (by decide)
    rw [repairPtAu_active t hPT ⟨r, hmem, hcell⟩, if_pos hAUc]
    refine ⟨repairRow (t.cols.indexOf "PT") (t.cols.indexOf "AU") r, ?_, ?_, ?_⟩
    · simp only [List.getElem?_map, hr]
      rfl
    · unfold repairRow
      rw [if_pos hcell, hgetD]
      simp only [Option.getD_some]
      rw [List.getElem?_set_ne hne, List.getElem?_set_eq_of_lt _ hpir]
    · unfold repairRow
      rw [if_pos hcell, hgetD]
      simp only [Option.getD_some]
      rw [List.getElem?_set_eq_of_lt]
      rw [List.length_set]
      exact hrlen ▸ hailt
  · have hAUc : ¬ t.cols.contains "AU" = true := fun hcon => hAU ((contains_iff _ _).mp hcon)
    have hai : (t.cols ++ ["AU"]).indexOf "AU" = t.cols.length := indexOf_append_self _ hAU
    have hext : (r ++ [some ""])[t.cols.indexOf "PT"]? = some (some s) := by
      rw [List.getElem?_append_left hpir, hpt]
    have hgetD' : (r ++ [some ""]).getD (t.cols.indexOf "PT") none = some s := by
      rw [List.getD_eq_getElem?_getD, hext]; rfl
    have hcell' : cellPred ((r ++ [some ""]).getD (t.cols.indexOf "PT") none) = true := by
      rw [hgetD']; exact hpred
    have hpir' : t.cols.indexOf "PT" < (r ++ [some ""]).length := by
      rw [List.length_append]
      exact Nat.lt_succ_of_lt hpir
    rw [repairPtAu_active t hPT ⟨r, hmem, hcell⟩, if_neg hAUc]
    refine ⟨repairRow (t.cols.indexOf "PT") ((t.cols ++ ["AU"]).indexOf "AU")
      (r ++ [some ""]), ?_, ?_, ?_⟩
    · simp only [List.getElem?_map, hr]
      rfl
    · unfold repairRow
      rw [if_pos hcell', hgetD']
      simp only [Option.getD_some]
      have hnepi : (t.cols ++ ["AU"]).indexOf "AU" ≠ t.cols.indexOf "PT" := by
        rw [hai]
        exact Nat.ne_of_gt hpilt
      rw [List.getElem?_set_ne hnepi, List.getElem?_set_eq_of_lt _ hpir']
    · unfold repairRow
      rw [if_pos hcell', hgetD']
      simp only [Option.getD_some]
      rw [List.getElem?_set_eq_of_lt]
      rw [List.length_set, List.length_append, hai, hrlen]
      exact Nat.lt_succ_self _

/-- The recovered code: one character, from the closed set. -/
lemma splitFirstSpace_code (s : String) (h : repairPred s = true) :
    (splitFirstSpace s).1.length = 1 ∧
      ((splitFirstSpace s).1 = "J" ∨ (splitFirstSpace s).1 = "B" ∨
       (splitFirstSpace s).1 = "S" ∨ (splitFirstSpace s).1 = "P") := by
  obtain ⟨c, rest, -, hsplit, hc⟩ := splitFirstSpace_pred s h
  rw [hsplit]
  refine ⟨rfl, ?_⟩
  rcases hc with h1 | h1 | h1 | h1 <;> subst h1
  · exact Or.inl rfl
  · exact Or.inr (Or.inl rfl)
  · exact Or.inr (Or.inr (Or.inl rfl))
  · exact Or.inr (Or.inr (Or.inr rfl))

lemma not_any_match (t : Table)
    (h : ¬ ∃ x ∈ t.rows, cellPred (x.getD (t.cols.indexOf "PT") none) = true) :
    ∀ x ∈ t.rows, cellPred (x.getD (t.cols.indexOf "PT") none) = false := by
  intro x hx
  cases hcp : cellPred (x.getD (t.cols.indexOf "PT") none) with
  | false => rfl
  | true => exact absurd ⟨x, hx, hcp⟩ h

/-- A column position carrying a label other than `a` is not the
position `indexOf a`. -/
lemma indexOf_ne_of_col (t : Table) (j : Nat) (c a : String)
    (hc : t.cols[j]? = some c) (ha : a ∈ t.cols) (hne : c ≠ a) :
    t.cols.indexOf a ≠ j := by
  intro he
  have hlt := List.indexOf_lt_length.mpr ha
  have h1 : t.cols[t.cols.indexOf a]? = some a := by
    rw [List.getElem?_eq_getElem hlt, List.getElem_indexOf hlt]
  rw [he, hc] at h1
  exact hne (Option.some.inj h1)

lemma repairRow_not_match (pi ai : Nat) (r : List Cell)
    (h : cellPred (r.getD pi none) = false) : repairRow pi ai r = r := by
  unfold repairRow
  rw [h]
  simp

/-! ### Claims about the Row Repair Engine -/

/-- C3: for every row of a table with a `PT` column that matches the
repair predicate, after `_repair_pt_au` the `PT` cell has length exactly
1 and is one of the closed-set letters J, B, S, P, and the `AU` cell is
everything after the first space of the original `PT` cell — whatever
value `AU` held before (no hypothesis constrains it, so any prior value
is overwritten). -/
theorem c3_repair_overwrites_pt_au (t : Table) (hwf : t.WF) (hPT : "PT" ∈ t.cols)
    (i : Nat) (r : List Cell) (s : String)
    (hr : t.rows[i]? = some r)
    (hpt : r[t.cols.indexOf "PT"]? = some (some s))
    (hpred : repairPred s = true) :
    ∃ r', (repairPtAu t).rows[i]? = some r' ∧
      r'[t.cols.indexOf "PT"]? = some (some (splitFirstSpace s).1) ∧
      (splitFirstSpace s).1.length = 1 ∧
      ((splitFirstSpace s).1 = "J" ∨ (splitFirstSpace s).1 = "B" ∨
       (splitFirstSpace s).1 = "S" ∨ (splitFirstSpace s).1 = "P") ∧
      r'[(repairPtAu t).cols.indexOf "AU"]? = some (some (splitFirstSpace s).2) := by
  obtain ⟨r', h1, h2, h3⟩ := repair_row_get t hwf hPT i r s hr hpt hpred
  obtain ⟨hlen, hset⟩ := splitFirstSpace_code s hpred
  exact ⟨r', h1, h2, hlen, hset, h3⟩

/-- Witness for C3: the spec's Scenario B, with a prior non-empty `AU`
value that gets overwritten. -/
theorem c3_witness :
    ∃ r', (repairPtAu
        (Table.mk ["PT", "AU"] [[some "J Smith, John", some "old"]])).rows[0]? = some r' ∧
      r'[(Table.mk ["PT", "AU"] [[some "J Smith, John", some "old"]]).cols.indexOf "PT"]? =
        some (some (splitFirstSpace "J Smith, John").1) ∧
      (splitFirstSpace "J Smith, John").1.length = 1 ∧
      ((splitFirstSpace "J Smith, John").1 = "J" ∨ (splitFirstSpace "J Smith, John").1 = "B" ∨
       (splitFirstSpace "J Smith, John").1 = "S" ∨ (splitFirstSpace "J Smith, John").1 = "P") ∧
      r'[(repairPtAu
          (Table.mk ["PT", "AU"] [[some "J Smith, John", some "old"]])).cols.indexOf "AU"]? =
        some (some (splitFirstSpace "J Smith, John").2) :=
  c3_repair_overwrites_pt_au _ (by decide) (by decide) 0 _ "J Smith, John" rfl
    (by decide) (by decide)

/-- C5: for every repaired row, post-repair `PT` cell ++ `" "` ++
post-repair `AU` cell reconstructs the original merged `PT` cell
exactly. -/
theorem c5_roundtrip (t : Table) (hwf : t.WF) (hPT : "PT" ∈ t.cols)
    (i : Nat) (r : List Cell) (s : String)
    (hr : t.rows[i]? = some r)
    (hpt : r[t.cols.indexOf "PT"]? = some (some s))
    (hpred : repairPred s = true) :
    ∃ r' pt au, (repairPtAu t).rows[i]? = some r' ∧
      r'[t.cols.indexOf "PT"]? = some (some pt) ∧
      r'[(repairPtAu t).cols.indexOf "AU"]? = some (some au) ∧
      pt ++ " " ++ au = s := by
  obtain ⟨r', h1, h2, h3⟩ := repair_row_get t hwf hPT i r s hr hpt hpred
  exact ⟨r', _, _, h1, h2, h3, splitFirstSpace_roundtrip s hpred⟩

/-- Witness for C5. -/
theorem c5_witness :
    ∃ r' pt au, (repairPtAu
        (Table.mk ["PT", "TI"] [[some "B Doe, Jane", some "t1"]])).rows[0]? = some r' ∧
      r'[(Table.mk ["PT", "TI"] [[some "B Doe, Jane", some "t1"]]).cols.indexOf "PT"]? =
        some (some pt) ∧
      r'[(repairPtAu
          (Table.mk ["PT", "TI"] [[some "B Doe, Jane", some "t1"]])).cols.indexOf "AU"]? =
        some (some au) ∧
      pt ++ " " ++ au = "B Doe, Jane" :=
  c5_roundtrip _ (by decide) (by decide) 0 _ "B Doe, Jane" rfl (by decide) (by decide)

/-- C4: a row whose `PT` cell does not satisfy the repair predicate
passes through `_repair_pt_au` untouched: it is returned as-is, or (when
the `AU` column is created because some other row matched) extended by
the pre-filled empty-string `AU` cell, its existing cells intact. -/
theorem c4_nonmatching_row_identity (t : Table) (hwf : t.WF)
    (i : Nat) (r : List Cell) (hr : t.rows[i]? = some r)
    (hpred : cellPred (r.getD (t.cols.indexOf "PT") none) = false) :
    (repairPtAu t).rows[i]? = some r ∨
      (repairPtAu t).rows[i]? = some (r ++ [some ""]) := by
  by_cases hPT : "PT" ∈ t.cols
  · by_cases hAny : ∃ x ∈ t.rows, cellPred (x.getD (t.cols.indexOf "PT") none) = true
    · rw [repairPtAu_active t hPT hAny]
      by_cases hAU : "AU" ∈ t.cols
      · left
        rw [if_pos ((contains_iff _ _).mpr hAU)]
        simp only [List.getElem?_map, hr]
        exact congrArg some (repairRow_not_match _ _ _ hpred)
      · right
        rw [if_neg (fun hc => hAU ((contains_iff _ _).mp hc))]
        simp only [List.getElem?_map, hr]
        have hpir : t.cols.indexOf "PT" < r.length :=
          (hwf r (List.getElem?_mem hr)) ▸ List.indexOf_lt_length.mpr hPT
        have hpred' : cellPred ((r ++ [some ""]).getD (t.cols.indexOf "PT") none) = false := by
          rw [List.getD_eq_getElem?_getD, List.getElem?_append_left hpir,
            ← List.getD_eq_getElem?_getD]
          exact hpred
        exact congrArg some (repairRow_not_match _ _ _ hpred')
    · rw [repairPtAu_inactive t (Or.inr (not_any_match t hAny))]
      exact Or.inl hr
  · rw [repairPtAu_inactive t (Or.inl hPT)]
    exact Or.inl hr

/-- Witness for C4: Scenario C (single-character `PT` cell `"J"`) and a
spaced value not starting with a closed-set letter, both untouched. -/
theorem c4_witness :
    ((repairPtAu (Table.mk ["PT"] [[some "J"], [some "X long value"]])).rows[0]? =
        some [some "J"] ∨
      (repairPtAu (Table.mk ["PT"] [[some "J"], [some "X long value"]])).rows[0]? =
        some ([some "J"] ++ [some ""])) ∧
    ((repairPtAu (Table.mk ["PT"] [[some "J"], [some "X long value"]])).rows[1]? =
        some [some "X long value"] ∨
      (repairPtAu (Table.mk ["PT"] [[some "J"], [some "X long value"]])).rows[1]? =
        some ([some "X long value"] ++ [some ""])) :=
  ⟨c4_nonmatching_row_identity _ (by decide) 0 _ rfl (by decide),
   c4_nonmatching_row_identity _ (by decide) 1 _ rfl (by decide)⟩

/-- C6: `_repair_pt_au` preserves the number of rows exactly, and in
every row every cell under a column other than `PT` and `AU` is
unchanged. -/
theorem c6_frame (t : Table) (hwf : t.WF) :
    (repairPtAu t).rows.length = t.rows.length ∧
    ∀ (i : Nat) (r : List Cell) (j : Nat) (c : String),
      t.rows[i]? = some r → t.cols[j]? = some c →
      c ≠ "PT" → c ≠ "AU" →
      ∃ r' : List Cell, (repairPtAu t).rows[i]? = some r' ∧ r'[j]? = r[j]? := by
  by_cases hPT : "PT" ∈ t.cols
  · by_cases hAny : ∃ x ∈ t.rows, cellPred (x.getD (t.cols.indexOf "PT") none) = true
    · rw [repairPtAu_active t hPT hAny]
      by_cases hAU : "AU" ∈ t.cols
      · rw [if_pos ((contains_iff _ _).mpr hAU)]
        refine ⟨by simp, ?_⟩
        intro i r j c hr hc hcP hcA
        refine ⟨repairRow (t.cols.indexOf "PT") (t.cols.indexOf "AU") r,
          by simp only [List.getElem?_map, hr]; rfl, ?_⟩
        have hjpi : t.cols.indexOf "PT" ≠ j := indexOf_ne_of_col t j c "PT" hc hPT hcP
        have hjai : t.cols.indexOf "AU" ≠ j := indexOf_ne_of_col t j c "AU" hc hAU hcA
        unfold repairRow
        by_cases hpr : cellPred (r.getD (t.cols.indexOf "PT") none) = true
        · rw [if_pos hpr, List.getElem?_set_ne hjai, List.getElem?_set_ne hjpi]
        · rw [if_neg hpr]
      · rw [if_neg (fun hcon => hAU ((contains_iff _ _).mp hcon))]
        refine ⟨by simp, ?_⟩
        intro i r j c hr hc hcP hcA
        obtain ⟨hjlt, -⟩ := List.getElem?_eq_some_iff.mp hc
        have hrlen : r.length = t.cols.length := hwf r (List.getElem?_mem hr)
        have hjr : j < r.length := hrlen ▸ hjlt
        refine ⟨repairRow (t.cols.indexOf "PT") ((t.cols ++ ["AU"]).indexOf "AU")
            (r ++ [some ""]),
          by simp only [List.getElem?_map, hr]; rfl, ?_⟩
        have hext : (r ++ [some ""])[j]? = r[j]? := List.getElem?_append_left hjr
        have hjpi : t.cols.indexOf "PT" ≠ j := indexOf_ne_of_col t j c "PT" hc hPT hcP
        have hjai : (t.cols ++ ["AU"]).indexOf "AU" ≠ j := by
          rw [indexOf_append_self _ hAU]
          exact Nat.ne_of_gt hjlt
        unfold repairRow
        by_cases hpr : cellPred ((r ++ [some ""]).getD (t.cols.indexOf "PT") none) = true
        · rw [if_pos hpr, List.getElem?_set_ne hjai, List.getElem?_set_ne hjpi, hext]
        · rw [if_neg hpr, hext]
    · rw [repairPtAu_inactive t (Or.inr (not_any_match t hAny))]
      exact ⟨rfl, fun i r j c hr hc _ _ => ⟨r, hr, rfl⟩⟩
  · rw [repairPtAu_inactive t (Or.inl hPT)]
    exact ⟨rfl, fun i r j c hr hc _ _ => ⟨r, hr, rfl⟩⟩

/-- Witness for C6: a table where the repair fires, checked on the `TI`
column of the matching row. -/
theorem c6_witness :
    ∃ r' : List Cell,
      (repairPtAu (Table.mk ["TI", "PT"] [[some "x", some "J Foo"]])).rows[0]? = some r' ∧
      r'[0]? = ([some "x", some "J Foo"] : List Cell)[0]? :=
  (c6_frame (Table.mk ["TI", "PT"] [[some "x", some "J Foo"]]) (by decide)).2
    0 [some "x", some "J Foo"] 0 "TI" rfl rfl (by decide) (by decide)

/-- C10: when the `PT` column is absent or no row matches the predicate,
`_repair_pt_au` returns its input entirely unchanged; and the `AU`
column appears in the output without having been in the input only when
`PT` exists and at least one row matches. -/
theorem c10_noop_and_au_creation (t : Table) :
    (("PT" ∉ t.cols ∨
        ∀ r ∈ t.rows, cellPred (r.getD (t.cols.indexOf "PT") none) = false) →
      repairPtAu t = t) ∧
    ("AU" ∈ (repairPtAu t).cols → "AU" ∉ t.cols →
      "PT" ∈ t.cols ∧ ∃ r ∈ t.rows, cellPred (r.getD (t.cols.indexOf "PT") none) = true) := by
  refine ⟨repairPtAu_inactive t, ?_⟩
  intro hAUout hAUin
  by_cases hPT : "PT" ∈ t.cols
  · by_cases hAny : ∃ x ∈ t.rows, cellPred (x.getD (t.cols.indexOf "PT") none) = true
    · exact ⟨hPT, hAny⟩
    · rw [repairPtAu_inactive t (Or.inr (not_any_match t hAny))] at hAUout
      exact absurd hAUout hAUin
  · rw [repairPtAu_inactive t (Or.inl hPT)] at hAUout
    exact absurd hAUout hAUin

/-- Witness for C10: a table with a `PT` column whose single row is
well-formed is returned unchanged. -/
theorem c10_witness :
    repairPtAu (Table.mk ["PT"] [[some "J"]]) = Table.mk ["PT"] [[some "J"]] :=
  (c10_noop_and_au_creation _).1 (Or.inr (by decide))

/-! ### Claims about the Merger / Normalizer renaming step -/

lemma lookup_filter_key (g : String → Bool) (m : List (String × String)) (c : String) :
    (m.filter (fun p => g p.1)).lookup c = if g c then m.lookup c else none := by
  induction m with
  | nil => simp
  | cons p ps ih =>
    rcases p with ⟨k, v⟩
    by_cases hck : c = k
    · subst hck
      by_cases hk : g c = true
      · simp [List.filter_cons, hk, List.lookup_cons, ih]
      · have hk' : g c = false := by revert hk; cases g c <;> simp
        simp [List.filter_cons, hk', List.lookup_cons, ih]
    · have hbeq : (c == k) = false := beq_false_of_ne hck
      by_cases hk : g k = true
      · simp [List.filter_cons, hk, List.lookup_cons, hbeq, ih]
      · have hk' : g k = false := by revert hk; cases g k <;> simp
        simp [List.filter_cons, hk', ih, List.lookup_cons, hbeq]

lemma lookup_mem {m : List (String × String)} {a b : String}
    (h : m.lookup a = some b) : (a, b) ∈ m := by
  induction m with
  | nil => simp at h
  | cons p ps ih =>
    rcases p with ⟨k, v⟩
    cases hck : a == k
    · simp only [List.lookup_cons, hck] at h
      exact List.mem_cons_of_mem _ (ih h)
    · simp only [List.lookup_cons, hck] at h
      have ha : a = k := eq_of_beq hck
      have hb : v = b := Option.some.inj h
      subst ha
      subst hb
      exact List.mem_cons_self _ _

/-- No value of the rename map is one of its keys. -/
lemma rename_map_val_not_key : ∀ p ∈ RENAME_MAP, RENAME_MAP.lookup p.2 = none := by decide

/-- Every key of the rename map has a lookup result. -/
lemma rename_map_key_some : ∀ p ∈ RENAME_MAP, (RENAME_MAP.lookup p.1).isSome = true := by
  decide

lemma renameColumns_def (m : List (String × String)) (t : Table) :
    renameColumns m t =
      Table.mk (t.cols.map (renameLabel (m.filter (fun p => t.cols.contains p.1))))
        t.rows := rfl

lemma renameLabel_filter (m : List (String × String)) (cols : List String) (c : String) :
    renameLabel (m.filter (fun p => cols.contains p.1)) c =
      if cols.contains c then renameLabel m c else c := by
  unfold renameLabel
  rw [lookup_filter_key (fun x => cols.contains x) m c]
  by_cases h : cols.contains c = true
  · rw [if_pos h, if_pos h]
  · rw [if_neg h, if_neg h]

/-- C9: applying the default rename map (restricted to the columns
actually present, as `read_wos_exports` does) twice gives the same table
as applying it once, and a column label that is not a key of the map
(such as `"XX"`) stays exactly where and what it was. -/
theorem c9_rename_idempotent_and_untouched (t : Table) :
    renameColumns RENAME_MAP (renameColumns RENAME_MAP t) = renameColumns RENAME_MAP t ∧
    ∀ (j : Nat) (c : String), t.cols[j]? = some c → RENAME_MAP.lookup c = none →
      (renameColumns RENAME_MAP t).cols[j]? = some c := by
  have hnokey : ∀ x ∈ (renameColumns RENAME_MAP t).cols, RENAME_MAP.lookup x = none := by
    intro x hx
    obtain ⟨c, hc, hcx⟩ := List.mem_map.mp hx
    subst hcx
    rw [renameLabel_filter, if_pos ((contains_iff _ _).mpr hc)]
    cases hl : RENAME_MAP.lookup c with
    | none =>
      have hid : renameLabel RENAME_MAP c = c := by unfold renameLabel; rw [hl]
      rw [hid]
      exact hl
    | some v =>
      have hv : renameLabel RENAME_MAP c = v := by unfold renameLabel; rw [hl]
      rw [hv]
      exact rename_map_val_not_key (c, v) (lookup_mem hl)
  have hfilter :
      RENAME_MAP.filter (fun p => (renameColumns RENAME_MAP t).cols.contains p.1) = [] := by
    rw [List.filter_eq_nil_iff]
    intro p hp hcon
    have h1 := hnokey p.1 ((contains_iff _ _).mp hcon)
    have h2 := rename_map_key_some p hp
    rw [h1] at h2
    exact absurd h2 (by decide)
  constructor
  · rw [renameColumns_def RENAME_MAP (renameColumns RENAME_MAP t), hfilter]
    have hmapid : (renameColumns RENAME_MAP t).cols.map (renameLabel []) =
        (renameColumns RENAME_MAP t).cols := by
      rw [List.map_congr_left (fun x _ => (rfl : renameLabel [] x = x))]
      exact List.map_id _
    rw [hmapid]
  · intro j c hj hl
    have hfc : renameLabel (RENAME_MAP.filter (fun p => t.cols.contains p.1)) c = c := by
      rw [renameLabel_filter]
      by_cases hcc : t.cols.contains c = true
      · rw [if_pos hcc]
        unfold renameLabel
        rw [hl]
      · rw [if_neg hcc]
    show (t.cols.map _)[j]? = some c
    rw [List.getElem?_map, hj]
    exact congrArg some hfc

/-- Witness for C9: Scenario E, an unrecognized column `"XX"` survives
the renaming unchanged at its position. -/
theorem c9_witness :
    (renameColumns RENAME_MAP (Table.mk ["XX", "PT"] [])).cols[0]? = some "XX" :=
  (c9_rename_idempotent_and_untouched (Table.mk ["XX", "PT"] [])).2 0 "XX" rfl (by decide)

/-! ### Claims about the Header Locator -/

lemma findHeaderAux_none_iff (k : Nat) (ls : List String) :
    findHeaderAux k ls = none ↔ ∀ l ∈ ls, startsWithPTTab l = false := by
  induction ls generalizing k with
  | nil => simp [findHeaderAux]
  | cons l ls ih =>
    unfold findHeaderAux
    by_cases hl : startsWithPTTab l = true
    · simp [hl]
    · have hl' : startsWithPTTab l = false := by revert hl; cases startsWithPTTab l <;> simp
      simp [hl', ih]

lemma findHeaderAux_some_spec (ls : List String) (k i : Nat)
    (h : findHeaderAux k ls = some i) :
    k ≤ i ∧ (∃ l, ls[i - k]? = some l ∧ startsWithPTTab l = true) ∧
      ∀ j, j < i - k → ∃ l, ls[j]? = some l ∧ startsWithPTTab l = false := by
  induction ls generalizing k with
  | nil => simp [findHeaderAux] at h
  | cons l ls ih =>
    unfold findHeaderAux at h
    by_cases hl : startsWithPTTab l = true
    · rw [if_pos hl] at h
      have hik : k = i := Option.some.inj h
      subst hik
      refine ⟨Nat.le_refl _, ?_, ?_⟩
      · rw [Nat.sub_self]
        exact ⟨l, by simp, hl⟩
      · intro j hj
        rw [Nat.sub_self] at hj
        exact absurd hj (Nat.not_lt_zero j)
    · rw [if_neg hl] at h
      have hl' : startsWithPTTab l = false := by revert hl; cases startsWithPTTab l <;> simp
      obtain ⟨hk, ⟨w, hw, hws⟩, hbefore⟩ := ih (k + 1) h
      have hki : k < i := Nat.lt_of_succ_le hk
      refine ⟨Nat.le_of_lt hki, ?_, ?_⟩
      · have hsub : i - k = (i - (k + 1)) + 1 := by omega
        rw [hsub]
        exact ⟨w, by simpa using hw, hws⟩
      · intro j hj
        cases j with
        | zero => exact ⟨l, by simp, hl'⟩
        | succ j' =>
          have hj' : j' < i - (k + 1) := by omega
          obtain ⟨w', hw', hws'⟩ := hbefore j' hj'
          exact ⟨w', by simpa using hw', hws'⟩

lemma findHeaderAux_some_of_first (ls : List String) (k i : Nat)
    (hi : ∃ l, ls[i]? = some l ∧ startsWithPTTab l = true)
    (hbefore : ∀ j, j < i → ∃ l, ls[j]? = some l ∧ startsWithPTTab l = false) :
    findHeaderAux k ls = some (k + i) := by
  induction ls generalizing k i with
  | nil =>
    obtain ⟨l, hl, -⟩ := hi
    simp at hl
  | cons l ls ih =>
    cases i with
    | zero =>
      obtain ⟨w, hw, hws⟩ := hi
      have hwl : l = w := by simpa using hw
      unfold findHeaderAux
      rw [if_pos (hwl ▸ hws)]
      rfl
    | succ i' =>
      obtain ⟨w, hw, hws⟩ := hi
      obtain ⟨w0, hw0, hw0s⟩ := hbefore 0 (Nat.succ_pos i')
      have hwl : l = w0 := by simpa using hw0
      have hl' : startsWithPTTab l = false := hwl ▸ hw0s
      unfold findHeaderAux
      rw [if_neg (by simp [hl'])]
      have hrec := ih (k + 1) i' ⟨w, by simpa using hw, hws⟩ (fun j hj => by
        obtain ⟨w', hw', hws'⟩ := hbefore (j + 1) (Nat.succ_lt_succ hj)
        exact ⟨w', by simpa using hw', hws'⟩)
      rw [hrec]
      congr 1
      omega

/-- C8: `_find_header_line` returns the zero-based index of the first
line that begins with the marker `PT` followed immediately by the tab
delimiter, and fails with an error naming the file and the searched
marker exactly when no such line exists. -/
theorem c8_find_header_line_spec (file : String) (lines : List String) :
    (∀ i : Nat, findHeaderLine file lines = .ok i ↔
      ((∃ l, lines[i]? = some l ∧ startsWithPTTab l = true) ∧
       ∀ j, j < i → ∃ l, lines[j]? = some l ∧ startsWithPTTab l = false)) ∧
    (findHeaderLine file lines = .error (.notFound file "PT") ↔
      ∀ l ∈ lines, startsWithPTTab l = false) := by
  constructor
  · intro i
    constructor
    · intro h
      unfold findHeaderLine at h
      cases haux : findHeaderAux 0 lines with
      | none => rw [haux] at h; simp at h
      | some i' =>
        rw [haux] at h
        have hii : i' = i := by simpa using h
        subst hii
        obtain ⟨-, hfound, hbefore⟩ := findHeaderAux_some_spec lines 0 i' haux
        simp only [Nat.sub_zero] at hfound hbefore
        exact ⟨hfound, hbefore⟩
    · intro h
      obtain ⟨hfound, hbefore⟩ := h
      unfold findHeaderLine
      rw [findHeaderAux_some_of_first lines 0 i hfound hbefore]
      simp
  · constructor
    · intro h
      unfold findHeaderLine at h
      cases haux : findHeaderAux 0 lines with
      | none => exact (findHeaderAux_none_iff 0 lines).mp haux
      | some i' => rw [haux] at h; simp at h
    · intro h
      unfold findHeaderLine
      rw [(findHeaderAux_none_iff 0 lines).mpr h]

/-! ### Claims about the failure semantics of the pipeline -/

lemma length_insertByName (a : String × List String) (l : List (String × List String)) :
    (insertByName a l).length = l.length + 1 := by
  induction l with
  | nil => rfl
  | cons b bs ih =>
    unfold insertByName
    by_cases h : nameLe a.1.data b.1.data = true
    · rw [if_pos h]
      rfl
    · rw [if_neg h]
      simp [ih]

lemma sortByName_eq_nil_iff (l : List (String × List String)) :
    sortByName l = [] ↔ l = [] := by
  constructor
  · intro h
    cases l with
    | nil => rfl
    | cons a as =>
      have hlen : (sortByName (a :: as)).length = 0 := by rw [h]; rfl
      unfold sortByName at hlen
      rw [length_insertByName] at hlen
      exact absurd hlen (by simp)
  · intro h
    subst h
    rfl

lemma readWosExports_none (path : String) (rename : List (String × String)) :
    readWosExports (Folder.mk path none) rename =
      .error (.noInput path (path ++ " does not exist.")) := rfl

lemma readWosExports_some (path : String) (es : List (String × List String))
    (rename : List (String × String)) :
    readWosExports (Folder.mk path (some es)) rename =
      if (txtFiles es).isEmpty then
        .error (.noInput path ("No .txt files found in " ++ path))
      else .ok (renameColumns rename (concatFrames (buildFrames (txtFiles es)))) := rfl

/-- C7: `read_wos_exports` fails with the `NoInputError`-class failure
(`FileNotFoundError` in the source), whose error names the offending
directory, exactly when the directory does not exist or contains no file
matching `*.txt`; in that case no table is returned (the result is the
error, not an `ok`). -/
theorem c7_no_input_iff (folder : Folder) (rename : List (String × String)) :
    (∃ msg, readWosExports folder rename = .error (.noInput folder.path msg)) ↔
      (folder.contents = none ∨
       ∃ es, folder.contents = some es ∧ ∀ e ∈ es, endsWithTxt e.1 = false) := by
  obtain ⟨path, contents⟩ := folder
  cases contents with
  | none =>
    constructor
    · intro _
      exact Or.inl rfl
    · intro _
      exact ⟨path ++ " does not exist.", readWosExports_none path rename⟩
  | some es =>
    rw [readWosExports_some path es rename]
    by_cases hempty : (txtFiles es).isEmpty = true
    · rw [if_pos hempty]
      constructor
      · intro _
        right
        refine ⟨es, rfl, ?_⟩
        have htxt : txtFiles es = [] := by
          revert hempty
          cases htf : txtFiles es <;> simp
        have hnil : es.filter (fun e => endsWithTxt e.1) = [] := by
          unfold txtFiles at htxt
          exact (sortByName_eq_nil_iff _).mp htxt
        intro e he
        have hne := List.filter_eq_nil_iff.mp hnil e he
        revert hne
        cases endsWithTxt e.1 <;> simp
      · intro _
        exact ⟨"No .txt files found in " ++ path, rfl⟩
    · rw [if_neg hempty]
      constructor
      · intro h
        obtain ⟨msg, hmsg⟩ := h
        simp at hmsg
      · intro h
        rcases h with h | ⟨es', hes', hall⟩
        · exact Option.noConfusion h
        · have hee : es = es' := Option.some.inj hes'
          subst hee
          have hnil : es.filter (fun e => endsWithTxt e.1) = [] :=
            List.filter_eq_nil_iff.mpr (fun e he => by rw [hall e he]; simp)
          have htxt : txtFiles es = [] := by
            unfold txtFiles
            rw [hnil]
            rfl
          exact absurd (by rw [htxt]; rfl : (txtFiles es).isEmpty = true) hempty

/-! ### Claims about the consolidation loading path -/

/-- C2: in the consolidation path, the frame built for a file is
`loadFrame` of its lines, whose header row is the file's FIRST line —
regardless of the index `k` at which the header locator actually finds
the `PT<TAB>` marker line (the locator's result plays no role in
loading; in the source the call is commented out). -/
theorem c2_loader_uses_first_line (es : List (String × List String))
    (name : String) (L : List String) (k : Nat)
    (hmem : (name, L) ∈ txtFiles es)
    (hk : findHeaderLine name L = .ok k) :
    repairPtAu (loadFrame L) ∈ buildFrames (txtFiles es) ∧
    loadFrame L =
      Table.mk (splitTab (L.headD ""))
        ((L.tail.filter (fun l => l != "")).map (fun l =>
          (List.range (splitTab (L.headD "")).length).map (fun j => (splitTab l)[j]?))) := by
  constructor
  · exact List.mem_map.mpr ⟨(name, L), hmem, rfl⟩
  · cases L with
    | nil => exact absurd hk (by simp [findHeaderLine, findHeaderAux])
    | cons h0 rest => rfl

/-- Witness for C2: a file whose true marker line sits at index 2 after
two preamble lines; the loaded header is still the first line
(`"junk"`), not the marker line. -/
theorem c2_witness :
    repairPtAu (loadFrame ["junk", "noise", "PT\tAU", "J\tX"]) ∈
      buildFrames (txtFiles [("a.txt", ["junk", "noise", "PT\tAU", "J\tX"])]) ∧
    loadFrame ["junk", "noise", "PT\tAU", "J\tX"] =
      Table.mk (splitTab ((["junk", "noise", "PT\tAU", "J\tX"] : List String).headD ""))
        (((["junk", "noise", "PT\tAU", "J\tX"] : List String).tail.filter
            (fun l => l != "")).map (fun l =>
          (List.range (splitTab
            ((["junk", "noise", "PT\tAU", "J\tX"] : List String).headD "")).length).map
            (fun j => (splitTab l)[j]?))) :=
  c2_loader_uses_first_line [("a.txt", ["junk", "noise", "PT\tAU", "J\tX"])]
    "a.txt" ["junk", "noise", "PT\tAU", "J\tX"] 2 (by decide) (by decide)

/-! ### Claim about missing-column cells in the Unified Table -/

/-- Counterexample to C1 as stated: two export files with different
column sets (`a.txt` has `PT, AU`; `b.txt` has `PT, AB`).  In the
Unified Table the `Author` cell of the row that came from `b.txt` —
a column absent from that row's source file — is the NaN sentinel
(`none`), not the empty string. -/
theorem c1_counterexample :
    readWosExports
        (Folder.mk "data"
          (some [("a.txt", ["PT\tAU", "J\tFoo"]), ("b.txt", ["PT\tAB", "B\tBar"])]))
        RENAME_MAP =
      .ok (Table.mk ["Publication Type", "Author", "Abstract"]
        [[some "J", some "Foo", none], [some "B", none, some "Bar"]]) ∧
    ((Table.mk ["Publication Type", "Author", "Abstract"]
        [[some "J", some "Foo", none], [some "B", none, some "Bar"]]).rows.getD 1 []).getD 1
      (some "") ≠ some "" := by
  constructor
  · decide
  · decide

/-- C1 amended: in the Unified Table produced by `read_wos_exports`,
every cell that corresponds to a column absent from a row's source file
holds the NaN / missing-value sentinel (`none`) — the sentinel
`pd.concat` fills with — never the empty string. -/
theorem c1_absent_column_cells_are_nan (folder : Folder)
    (es : List (String × List String)) (T : Table)
    (h1 : folder.contents = some es)
    (h2 : readWosExports folder RENAME_MAP = .ok T)
    (fr : Table) (hfr : fr ∈ buildFrames (txtFiles es))
    (r : List Cell) (hr : r ∈ fr.rows) (j : Nat) (c : String)
    (hj : (unionCols ((buildFrames (txtFiles es)).map (fun f => f.cols)))[j]? = some c)
    (habs : fr.cols.contains c = false) :
    alignRow fr (unionCols ((buildFrames (txtFiles es)).map (fun f => f.cols))) r ∈ T.rows ∧
    (alignRow fr (unionCols ((buildFrames (txtFiles es)).map (fun f => f.cols))) r)[j]? =
      some none := by
  obtain ⟨path, contents⟩ := folder
  have h1' : contents = some es := h1
  subst h1'
  rw [readWosExports_some] at h2
  by_cases hempty : (txtFiles es).isEmpty = true
  · rw [if_pos hempty] at h2
    exact absurd h2 (by simp)
  · rw [if_neg hempty] at h2
    have hT : T = renameColumns RENAME_MAP (concatFrames (buildFrames (txtFiles es))) :=
      (Except.ok.inj h2).symm
    subst hT
    constructor
    · show _ ∈ (concatFrames (buildFrames (txtFiles es))).rows
      exact List.mem_flatMap.mpr ⟨fr, hfr, List.mem_map.mpr ⟨r, hr, rfl⟩⟩
    · unfold alignRow
      rw [List.getElem?_map, hj]
      have hnone :
          (if fr.cols.contains c then r.getD (fr.cols.indexOf c) none else none) = none := by
        rw [habs]
        simp
      exact congrArg some hnone

/-- Witness for the amended C1, on the counterexample's folder: the
aligned row of `b.txt` is a row of the Unified Table and its `Author`
cell (position 1, a column `b.txt` lacks) is `none`. -/
theorem c1_witness :
    alignRow (repairPtAu (loadFrame ["PT\tAB", "B\tBar"]))
        (unionCols ((buildFrames (txtFiles [("a.txt", ["PT\tAU", "J\tFoo"]),
            ("b.txt", ["PT\tAB", "B\tBar"])])).map (fun f => f.cols)))
        [some "B", some "Bar"] ∈
      (Table.mk ["Publication Type", "Author", "Abstract"]
        [[some "J", some "Foo", none], [some "B", none, some "Bar"]]).rows ∧
    (alignRow (repairPtAu (loadFrame ["PT\tAB", "B\tBar"]))
        (unionCols ((buildFrames (txtFiles [("a.txt", ["PT\tAU", "J\tFoo"]),
            ("b.txt", ["PT\tAB", "B\tBar"])])).map (fun f => f.cols)))
        [some "B", some "Bar"])[1]? = some none :=
  c1_absent_column_cells_are_nan
    (Folder.mk "data"
      (some [("a.txt", ["PT\tAU", "J\tFoo"]), ("b.txt", ["PT\tAB", "B\tBar"])]))
    [("a.txt", ["PT\tAU", "J\tFoo"]), ("b.txt", ["PT\tAB", "B\tBar"])]
    (Table.mk ["Publication Type", "Author", "Abstract"]
      [[some "J", some "Foo", none], [some "B", none, some "Bar"]])
    rfl (by decide)
    (repairPtAu (loadFrame ["PT\tAB", "B\tBar"])) (by decide)
    [some "B", some "Bar"] (by decide)
    1 "AU" (by decide) (by decide)
